import Mathlib

/-!
Shallow embedding of the retrieval pipeline of the study-mate repository:
the sentence chunker (server/src/utils/textProcessing.ts), the retry wrapper
and embedding client (server/src/services/openai.ts), the two vector-store
variants (server/src/services/pinecone.ts and the relational search in the
database service), the chat-route context assembly (server/src/routes/chat.ts),
the quiz validation filter (server/src/routes/quiz.ts) and the storage
selection of the upload route.

JavaScript strings are modeled as lists of characters (`JStr`): string
concatenation is list append, `s.length` is list length, `s.trim()` is
`jsTrim`, `s.substring(0, n)` is `List.take n`.  Numbers that the code only
compares (similarity scores, temperatures) are rationals; integer counters are
naturals.  Fallible calls return `Except`.  The cosine-similarity value
computed by the stores is abstracted as a score-function parameter: no claim
below depends on the numeric value of a similarity, only on filtering,
ordering and scoping, which are embedded faithfully.
-/

namespace StudyMate

/-- Model of a JavaScript string: a list of characters. -/
abbrev JStr := List Char

/-- Model of `s.trim()`: drop whitespace from both ends. -/
def jsTrim (s : JStr) : JStr :=
  ((s.dropWhile Char.isWhitespace).reverse.dropWhile Char.isWhitespace).reverse

/-- Helper for `containsSeq`: does `s` start with `pat`? -/
def startsWithSeq : JStr → JStr → Bool
  | [], _ => true
  | _ :: _, [] => false
  | p :: ps, c :: cs => p == c && startsWithSeq ps cs

/-- Model of a substring test: does `s` contain `pat` as a contiguous run? -/
def containsSeq (pat : JStr) : JStr → Bool
  | [] => startsWithSeq pat []
  | c :: cs => startsWithSeq pat (c :: cs) || containsSeq pat cs

/-! ## Chunker — `splitTextIntoChunks` in server/src/utils/textProcessing.ts -/

/-- Sentence-terminal punctuation, from the split regex `[.!?]+`. -/
def isSentenceTerminal (c : Char) : Bool := c == '.' || c == '!' || c == '?'

/-- Helper for `splitOnTerminals`: accumulates the current segment reversed. -/
def splitOnTerminalsAux : List Char → List Char → List JStr
  | [], acc => [acc.reverse]
  | c :: cs, acc =>
    if isSentenceTerminal c then acc.reverse :: splitOnTerminalsAux cs []
    else splitOnTerminalsAux cs (c :: acc)

/-- Split a text at sentence-terminal characters.  The source splits on the
regex `[.!?]+`; splitting at every single terminal instead only inserts extra
empty segments between consecutive terminals, and those are removed by the
whitespace filter of `sentencesOf`, so the filtered sentence list agrees with
the source. -/
def splitOnTerminals (text : JStr) : List JStr := splitOnTerminalsAux text []

/-- Embeds `text.split(/[.!?]+/).filter(s => s.trim().length > 0)`. -/
def sentencesOf (text : JStr) : List JStr :=
  (splitOnTerminals text).filter (fun s => 0 < (jsTrim s).length)

/-- Loop state of `splitTextIntoChunks`: finished chunks and the running chunk. -/
structure ChunkState where
  chunks : List JStr
  currentChunk : JStr

/-- Loop body of `splitTextIntoChunks`.  The source compares the estimate
`(currentChunk + trimmedSentence).length / 4 > maxTokens`, an exact division
by 4; over integers this is `4 * maxTokens < length`. -/
def chunkStep (maxTokens : Nat) (st : ChunkState) (sentence : JStr) : ChunkState :=
  let trimmedSentence := jsTrim sentence
  if trimmedSentence = [] then st
  else if 4 * maxTokens < (st.currentChunk ++ trimmedSentence).length ∧ st.currentChunk ≠ [] then
    ⟨st.chunks ++ [jsTrim st.currentChunk], trimmedSentence⟩
  else
    ⟨st.chunks,
      st.currentChunk ++ (if st.currentChunk ≠ [] then ['.', ' '] else []) ++ trimmedSentence⟩

/-- Embeds `splitTextIntoChunks(text, maxTokens)` from textProcessing.ts. -/
def splitTextIntoChunks (text : JStr) (maxTokens : Nat) : List JStr :=
  let final := (sentencesOf text).foldl (chunkStep maxTokens) ⟨[], []⟩
  if jsTrim final.currentChunk ≠ [] then final.chunks ++ [jsTrim final.currentChunk]
  else final.chunks

/-! ## Shared retry wrapper — `withRetries` in server/src/services/openai.ts -/

/-- Error thrown by a provider call: optional HTTP status, optional
machine-readable code, message.  The retry-after header only affects the sleep
duration, which is not observable in the result, so it is not modeled. -/
structure ApiError where
  status : Option Nat
  code : Option JStr
  message : JStr
deriving DecidableEq

/-- Embeds the quota test of `withRetries`:
either `code === insufficient_quota` or `/quota/i.test(message)`. -/
def isQuotaError (e : ApiError) : Bool :=
  e.code == some ("insufficient_quota".toList)
    || containsSeq ("quota".toList) (e.message.map Char.toLower)

/-- The error `withRetries` substitutes for a quota failure:
message OpenAI quota exceeded, status 429, code insufficient_quota. -/
def quotaExceededError : ApiError :=
  ⟨some 429, some ("insufficient_quota".toList), "OpenAI quota exceeded".toList⟩

/-- Embeds the transient-server-error test `status >= 500 && status < 600`;
an absent status compares false in the source. -/
def is5xxError (e : ApiError) : Bool :=
  match e.status with
  | some s => decide (500 ≤ s ∧ s < 600)
  | none => false

/-- Helper for `withRetries`.  The i-th invocation of the wrapped operation is
`fn i`; `remaining` is `maxRetries - attempt`, so the source guard
`attempt < maxRetries` is the match on `remaining`.  Returns the final result
together with the total number of invocations performed (`i` counts the
invocations already made). -/
def withRetriesAux (fn : Nat → Except ApiError α) : Nat → Nat → Except ApiError α × Nat
  | remaining, i =>
    match fn i with
    | .ok v => (.ok v, i + 1)
    | .error e =>
      if isQuotaError e then (.error quotaExceededError, i + 1)
      else
        match remaining with
        | 0 => (.error e, i + 1)
        | r + 1 =>
          if e.status == some 429 then withRetriesAux fn r (i + 1)
          else if is5xxError e then withRetriesAux fn r (i + 1)
          else (.error e, i + 1)

/-- Embeds `withRetries(fn, {retries: maxRetries})`; the default for
`maxRetries` in the source is 5.  The pair also reports how many times the
operation was invoked. -/
def withRetries (fn : Nat → Except ApiError α) (maxRetries : Nat) :
    Except ApiError α × Nat :=
  withRetriesAux fn maxRetries 0

/-! ## Embedding client — `generateEmbeddings` in server/src/services/openai.ts -/

/-- Embeds the `EmbeddingResponse` interface: vector plus token count. -/
structure EmbeddingResponse where
  embedding : List ℚ
  tokens : Nat
deriving DecidableEq

/-- Models `Math.round(num / den)` on nonnegative numbers (half rounds up). -/
def jsMathRound (num den : Nat) : Nat := (2 * num + den) / (2 * den)

/-- Embeds `generateEmbeddings(texts)`.  The provider call
`openai.embeddings.create({input: validTexts})` (wrapped in `withRetries`) is
abstracted as the `provider` argument: it receives the filtered texts and
either fails or returns the response data list together with
`usage.total_tokens`. -/
def generateEmbeddings
    (provider : List JStr → Except ApiError (List (List ℚ) × Nat))
    (texts : List JStr) : Except ApiError (List EmbeddingResponse) :=
  if texts.length = 0 then .ok []
  else
    let validTexts := texts.filter (fun t => 0 < (jsTrim t).length)
    if validTexts.length = 0 then .ok []
    else
      match provider validTexts with
      | .error e => .error e
      | .ok (data, totalTokens) =>
        let perTextTokens :=
          if 0 < validTexts.length then jsMathRound totalTokens validTexts.length else 0
        .ok (data.map fun emb => ⟨emb, perTextTokens⟩)

/-! ## Vector store, remote-index variant — server/src/services/pinecone.ts -/

/-- Metadata carried by a vector-store record or search result.  The program
only ever reads or filters the keys `text`, `documentId`, `documentName` and
`userId`, so the metadata map is embedded as these optional fields; a `none`
field models a key that is absent from the map. -/
structure PineconeVectorMetadata where
  text : Option JStr
  documentId : Option JStr
  documentName : Option JStr
  userId : Option JStr
deriving DecidableEq

/-- A record of the remote index: id, vector values, metadata. -/
structure PineconeVector where
  id : JStr
  values : List ℚ
  metadata : PineconeVectorMetadata
deriving DecidableEq

/-- Argument shape of both store operations:
`{id, embedding, text, documentId}`. -/
structure EmbeddingItem where
  id : JStr
  embedding : List ℚ
  text : JStr
  documentId : JStr
deriving DecidableEq

/-- Embeds `storeEmbeddings(embeddings)` from pinecone.ts: the records
upserted into the remote index.  The metadata written by the source is
`{text: item.text, documentId: item.documentId}` and nothing else, so the
`userId` field of every stored record is `none`. -/
def storeEmbeddings (embeddings : List EmbeddingItem) : List PineconeVector :=
  embeddings.map fun item =>
    ⟨item.id, item.embedding, ⟨some item.text, some item.documentId, none, none⟩⟩

/-- Search result shape from the `VectorSearchResult` interface; the metadata
carried along differs between the two variants, so all fields are optional. -/
structure VectorSearchResult where
  id : JStr
  text : JStr
  score : ℚ
  metadata : PineconeVectorMetadata
deriving DecidableEq

/-- Stable insertion of a scored candidate into a descending-by-score list. -/
def insertByScoreDesc (x : α × ℚ) : List (α × ℚ) → List (α × ℚ)
  | [] => [x]
  | y :: ys => if y.2 < x.2 then x :: y :: ys else y :: insertByScoreDesc x ys

/-- Orders scored candidates by descending score (ties keep list order; the
source leaves tie order unspecified). -/
def sortByScoreDesc (xs : List (α × ℚ)) : List (α × ℚ) :=
  xs.foldr insertByScoreDesc []

/-- Embeds `searchSimilarEmbeddings(queryEmbedding, topK, userId)` from
pinecone.ts.  The remote index is modeled as the list of its records and the
similarity it computes as the `score` argument.  When a `userId` is given the
source sends the equality filter `{userId: {$eq: userId}}`, which matches only
records whose stored metadata has that `userId` value; the index returns the
`topK` matches by descending score with metadata included. -/
def searchSimilarEmbeddings (index : List PineconeVector)
    (score : List ℚ → List ℚ → ℚ) (queryEmbedding : List ℚ) (topK : Nat)
    (userId : Option JStr) : List VectorSearchResult :=
  let filtered := match userId with
    | none => index
    | some u => index.filter (fun r => r.metadata.userId == some u)
  let ranked := sortByScoreDesc (filtered.map (fun r => (r, score queryEmbedding r.values)))
  (ranked.take topK).map fun rs =>
    ⟨rs.1.id, rs.1.metadata.text.getD [], rs.2, rs.1.metadata⟩

/-! ## Vector store, relational fallback — the database service -/

/-- A row of the documents table: id, name, owning user. -/
structure DBDocument where
  id : JStr
  name : JStr
  userId : JStr
deriving DecidableEq

/-- A row of the chunks table: id, document, text, embedding array column. -/
structure DBChunk where
  id : JStr
  documentId : JStr
  text : JStr
  embedding : List ℚ
deriving DecidableEq

/-- The relational store: documents and chunks tables. -/
structure Database where
  documents : List DBDocument
  chunks : List DBChunk

/-- Embeds the raw SQL of `searchSimilarEmbeddingsInDB(queryEmbedding, topK,
userId)`: join chunks with documents on `c.documentId = d.id`, optionally
restrict to `d.userId = userId`, order by similarity descending, limit `topK`,
and return id, text, score and `{documentId, documentName}` metadata.  The
in-query cosine similarity is abstracted as the `score` argument. -/
def searchSimilarEmbeddingsInDB (db : Database)
    (score : List ℚ → List ℚ → ℚ) (queryEmbedding : List ℚ) (topK : Nat)
    (userId : Option JStr) : List VectorSearchResult :=
  let joined := db.chunks.flatMap fun c =>
    (db.documents.filter (fun d => d.id == c.documentId)).map (fun d => (c, d))
  let ownerScoped := match userId with
    | none => joined
    | some u => joined.filter (fun cd => cd.2.userId == u)
  let ranked := sortByScoreDesc (ownerScoped.map (fun cd => (cd, score queryEmbedding cd.1.embedding)))
  (ranked.take topK).map fun rs =>
    ⟨rs.1.1.id, rs.1.1.text, rs.2, ⟨none, some rs.1.1.documentId, some rs.1.2.name, none⟩⟩

/-! ## Chat route — context assembly and completion, server/src/routes/chat.ts -/

/-- Embeds step 3 of the chat route: results filtered to score strictly above
0.7, limited to the first 5, mapped to their texts. -/
def contextChunks (searchResults : List VectorSearchResult) : List JStr :=
  ((searchResults.filter (fun r => (0.7 : ℚ) < r.score)).take 5).map (fun r => r.text)

/-- Embeds `contextChunks.join(two newlines)` producing the `context` string. -/
def chatContext (searchResults : List VectorSearchResult) : JStr :=
  List.intercalate ("\n\n".toList) (contextChunks searchResults)

/-- Embeds the references: same filter and cap, each mapped to the first 100
characters of the text followed by the formatted score.  The float formatting
`score.toFixed(3)` is abstracted as `fmt`. -/
def chatReferences (fmt : ℚ → JStr) (searchResults : List VectorSearchResult) : List JStr :=
  ((searchResults.filter (fun r => (0.7 : ℚ) < r.score)).take 5).map fun r =>
    r.text.take 100 ++ "... (Score: ".toList ++ fmt r.score ++ ")".toList

/-- Message roles of the completion request. -/
inductive ChatRole
  | system
  | user
deriving DecidableEq

/-- A message of the completion request. -/
structure ChatMessage where
  role : ChatRole
  content : JStr
deriving DecidableEq

/-- Embeds the message construction of `generateChatCompletion(systemPrompt,
userQuery, context)`: the system prompt, then either the framed user turn when
`context` is truthy (present and non-empty) or the raw query otherwise. -/
def buildChatMessages (systemPrompt userQuery : JStr) (context : Option JStr) :
    List ChatMessage :=
  [⟨ChatRole.system, systemPrompt⟩] ++
    (if context.getD [] ≠ [] then
      [⟨ChatRole.user,
        "Context information:\n".toList ++ context.getD [] ++
          "\n\nQuestion: ".toList ++ userQuery⟩]
    else [⟨ChatRole.user, userQuery⟩])

/-- The completion request issued by `generateChatCompletion`:
messages, `max_tokens: 1000`, `temperature: 0.7`. -/
structure ChatCompletionRequest where
  messages : List ChatMessage
  maxTokens : Nat
  temperature : ℚ
deriving DecidableEq

/-- Embeds steps 3 to 5 of the chat route after a successful search: assemble
context and references from the search results, then unconditionally issue the
completion request `generateChatCompletion(systemPrompt, query, context)`.
The route always reaches step 5; there is no short-circuit on an empty
context. -/
def chatRouteStep (fmt : ℚ → JStr) (searchResults : List VectorSearchResult)
    (query systemPrompt : JStr) : JStr × List JStr × ChatCompletionRequest :=
  let context := chatContext searchResults
  let references := chatReferences fmt searchResults
  (context, references,
    ⟨buildChatMessages systemPrompt query (some context), 1000, (0.7 : ℚ)⟩)

/-! ## Quiz route — question validation, server/src/routes/quiz.ts -/

/-- A quiz question as parsed from the provider JSON, before validation.  The
`question` field uses `[]` for a missing or empty string (both are falsy in
the source test); `options` is `none` when missing or not an array;
`correctAnswer` is `some q` when the field is a number `q` and `none`
otherwise. -/
structure RawQuizQuestion where
  question : JStr
  options : Option (List JStr)
  correctAnswer : Option ℚ
  explanation : Option JStr
deriving DecidableEq

/-- Embeds the validation filter of the quiz route: keep questions with a
truthy `question`, an options array of length exactly 4 and a numeric
`correctAnswer`, then `slice(0, numQuestions)`. -/
def validateQuizQuestions (quizQuestions : List RawQuizQuestion) (numQuestions : Nat) :
    List RawQuizQuestion :=
  (quizQuestions.filter fun q =>
      !q.question.isEmpty && q.options.isSome
        && (q.options.getD []).length == 4 && q.correctAnswer.isSome).take numQuestions

/-! ## Storage selection — upload route store fallback and chat route search -/

/-- The two vector-store variants. -/
inductive StorageMethod
  | pinecone
  | database
deriving DecidableEq

/-- Embeds step 6 of the upload route: when `PINECONE_API_KEY` is configured,
try the remote store and report `pinecone` on success; on a remote store
failure, or when the key is absent, fall back to the relational store and
report `database`; when the fallback also fails the upload fails and nothing
is stored (`none`). -/
def uploadStoreOutcome (pineconeConfigured remoteStoreFails dbStoreFails : Bool) :
    Option StorageMethod :=
  if pineconeConfigured && !remoteStoreFails then some StorageMethod.pinecone
  else if !dbStoreFails then some StorageMethod.database
  else none

/-- Embeds step 2 of the chat route: the search variant is chosen by the
presence of `PINECONE_API_KEY` alone. -/
def chatSearchMethod (pineconeConfigured : Bool) : StorageMethod :=
  if pineconeConfigured then StorageMethod.pinecone else StorageMethod.database

/-- Embeds step 5 of the upload route: pair the embedding responses with the
chunk texts by position, `embeddingResponses.map((response, index) => ({id,
text: textChunks[index], embedding: response.embedding, documentId}))`.  The
generated uuid of each item is abstracted as `ids index`; an out-of-range
index, which in the source would read `undefined`, defaults to the empty
string. -/
def uploadEmbeddingItems (ids : Nat → JStr) (documentId : JStr)
    (textChunks : List JStr) (responses : List EmbeddingResponse) : List EmbeddingItem :=
  responses.mapIdx fun index response =>
    ⟨ids index, response.embedding, textChunks.getD index [], documentId⟩

/-- Invariant used for the chunk-size bound: a finished chunk either is the
trimmed form of one single sentence of the input, or its length is within the
estimate bound plus the two characters of the joining separator. -/
def OkChunk (sentences : List JStr) (maxTokens : Nat) (c : JStr) : Prop :=
  (∃ s ∈ sentences, c = jsTrim (jsTrim s)) ∨ c.length ≤ 4 * maxTokens + 2

/-- Invariant used for the chunk-size bound: the running chunk is empty, or a
single trimmed sentence, or within the bound. -/
def OkCurrent (sentences : List JStr) (maxTokens : Nat) (cc : JStr) : Prop :=
  cc = [] ∨ (∃ s ∈ sentences, cc = jsTrim s) ∨ cc.length ≤ 4 * maxTokens + 2

/-! ## Helper lemmas -/

/-- Trimming never lengthens a string. -/
theorem jsTrim_length_le (s : JStr) : (jsTrim s).length ≤ s.length := by
  unfold jsTrim
  calc (((s.dropWhile Char.isWhitespace).reverse.dropWhile Char.isWhitespace).reverse).length
      = ((s.dropWhile Char.isWhitespace).reverse.dropWhile Char.isWhitespace).length := by
        rw [List.length_reverse]
    _ ≤ (s.dropWhile Char.isWhitespace).reverse.length :=
        (List.dropWhile_sublist Char.isWhitespace).length_le
    _ = (s.dropWhile Char.isWhitespace).length := by rw [List.length_reverse]
    _ ≤ s.length := (List.dropWhile_sublist Char.isWhitespace).length_le

/-- Membership after inserting into a score-sorted list. -/
theorem mem_insertByScoreDesc {x y : α × ℚ} {l : List (α × ℚ)} :
    y ∈ insertByScoreDesc x l ↔ y = x ∨ y ∈ l := by
  induction l with
  | nil => simp [insertByScoreDesc]
  | cons z zs ih =>
    by_cases h : z.2 < x.2
    · simp [insertByScoreDesc, h]
    · simp only [insertByScoreDesc, if_neg h, List.mem_cons, ih]
      tauto

/-- Sorting by descending score preserves membership. -/
theorem mem_sortByScoreDesc {y : α × ℚ} {xs : List (α × ℚ)} :
    y ∈ sortByScoreDesc xs ↔ y ∈ xs := by
  induction xs with
  | nil => simp [sortByScoreDesc]
  | cons x l ih =>
    simp only [sortByScoreDesc, List.foldr] at ih ⊢
    rw [mem_insertByScoreDesc, ih, List.mem_cons]

/-- Intercalating a two-element list places the separator once in the middle. -/
theorem intercalate_pair (sep a b : List α) :
    List.intercalate sep [a, b] = a ++ sep ++ b := by
  simp [List.intercalate, List.intersperse]

/-! ## Claim C2 — metadata written by the remote-index store -/

/-- Claim C2 (code divergence): the claim states that every record written by
the remote-index store carries `{text, documentId, ownerId}` metadata so that
an equality filter on the owner can match it.  Evaluating the embedded store
at a one-chunk batch shows the written record carries only text and
documentId — its owner tag is absent (`none`) — and consequently a search
scoped to the owning user by the equality filter on `userId` matches nothing,
not even the just-stored chunk of that very user. -/
theorem claim_C2_store_metadata_divergence :
    storeEmbeddings [⟨"c1".toList, [(1 : ℚ)], "hello".toList, "d1".toList⟩] =
      [⟨"c1".toList, [(1 : ℚ)], ⟨some ("hello".toList), some ("d1".toList), none, none⟩⟩] ∧
    (storeEmbeddings [⟨"c1".toList, [(1 : ℚ)], "hello".toList,
        "d1".toList⟩]).map (fun v => v.metadata.userId) = [none] ∧
    searchSimilarEmbeddings
      (storeEmbeddings [⟨"c1".toList, [(1 : ℚ)], "hello".toList, "d1".toList⟩])
      (fun _ _ => 1) [(1 : ℚ)] 5 (some ("A".toList)) = [] := by
  decide

/-! ## Claim C3 — storage-variant and search-variant consistency -/

/-- Claim C3 counterexample: with the remote index configured and a
store-time failure, the upload route stores the chunk in the relational
fallback, while the chat route searches only the remote index, because its
selection looks at the configuration flag alone.  The two variants differ, so
the storage and search paths of such a chunk are inconsistent, refuting the
claim as stated. -/
theorem claim_C3_counterexample :
    uploadStoreOutcome true true false = some StorageMethod.database ∧
    chatSearchMethod true = StorageMethod.pinecone ∧
    StorageMethod.database ≠ StorageMethod.pinecone := by
  decide

/-- Claim C3, amended: the search variant equals the storage variant for every
chunk whose ingestion did not hit a remote store-time failure while the remote
index was configured: with the remote index configured and working the chunk
is stored and searched remotely, and with the remote index unconfigured it is
stored and searched relationally.  Only a fallback taken while the remote
index stays configured breaks the correspondence. -/
theorem claim_C3_consistency_amended (configured remoteFails dbFails : Bool)
    (m : StorageMethod)
    (hstore : uploadStoreOutcome configured remoteFails dbFails = some m)
    (hnofb : configured = true → remoteFails = false) :
    chatSearchMethod configured = m := by
  cases configured <;> cases remoteFails <;> cases dbFails <;>
    simp_all [uploadStoreOutcome, chatSearchMethod]

/-- Witness for the amended claim C3 at a concrete configuration: remote index
configured, no store failure. -/
theorem claim_C3_consistency_amended_witness :
    chatSearchMethod true = StorageMethod.pinecone :=
  claim_C3_consistency_amended true false false StorageMethod.pinecone
    (by decide) (fun _ => rfl)

/-! ## Claim C5 — batch embedding of all-whitespace input -/

/-- Claim C5 counterexample: the claim states that a non-empty list of texts
that are all empty or whitespace-only makes `generateEmbeddings` fail with an
empty-input error.  Evaluating the embedding at the two-element all-whitespace
list, with a provider that fails on every call, returns the successful empty
list instead: the function filters the texts, finds nothing valid, and
returns `[]` without calling the provider and without any error. -/
theorem claim_C5_counterexample :
    generateEmbeddings (fun _ => Except.error ⟨none, none, []⟩) [[], [' ']] =
      Except.ok [] ∧
    ([], [' ']) ≠ (([] : JStr), ([] : JStr)) ∧
    jsTrim [] = [] ∧ jsTrim [' '] = [] :=
  ⟨rfl, by decide, by decide, by decide⟩

/-- Claim C5, amended: for every non-empty list of texts in which every
element is empty or whitespace-only, `generateEmbeddings` returns the empty
result list (it does not fail, and it does not call the provider). -/
theorem claim_C5_all_whitespace_returns_empty
    (provider : List JStr → Except ApiError (List (List ℚ) × Nat))
    (texts : List JStr) (hne : texts ≠ [])
    (hws : ∀ t ∈ texts, jsTrim t = []) :
    generateEmbeddings provider texts = Except.ok [] := by
  unfold generateEmbeddings
  have hfil : texts.filter (fun t => decide (0 < (jsTrim t).length)) = [] := by
    rw [List.filter_eq_nil_iff]
    intro t ht
    simp [hws t ht]
  rw [if_neg (by simpa using hne)]
  simp only [hfil]
  rfl

/-- Witness for the amended claim C5 at the concrete all-whitespace input. -/
theorem claim_C5_all_whitespace_returns_empty_witness :
    generateEmbeddings (fun _ => Except.error ⟨none, none, []⟩) [[], [' ']] =
      Except.ok [] :=
  claim_C5_all_whitespace_returns_empty _ [[], [' ']] (by decide)
    (by intro t ht; fin_cases ht <;> decide)

/-! ## Claim C9 — quiz question validation -/

/-- Claim C9 counterexample: the claim states that every returned quiz
question has a correctAnswer that is a zero-based index of one of its 4
options, an integer in 0..3.  The validation filter of the quiz route only
checks that correctAnswer is a number: a question whose correctAnswer is 7
passes the filter and is returned unchanged, and 7 is not an index of the 4
options. -/
theorem claim_C9_counterexample :
    validateQuizQuestions
        [⟨"Q".toList, some ["a".toList, "b".toList, "c".toList, "d".toList],
          some (7 : ℚ), none⟩] 5 =
      [⟨"Q".toList, some ["a".toList, "b".toList, "c".toList, "d".toList],
          some (7 : ℚ), none⟩] ∧
    (3 : ℚ) < 7 := by
  constructor
  · decide
  · decide

/-- Claim C9, amended: every quiz question returned by the validation step has
a non-empty question text, exactly 4 answer options, and a correctAnswer that
is a number — but not necessarily an integer in the range 0..3 — and the
number of returned questions never exceeds the requested numQuestions. -/
theorem claim_C9_quiz_shape_amended (qs : List RawQuizQuestion) (n : Nat) :
    (∀ q ∈ validateQuizQuestions qs n,
      q.question ≠ [] ∧ (q.options.getD []).length = 4 ∧ q.correctAnswer.isSome = true) ∧
    (validateQuizQuestions qs n).length ≤ n := by
  constructor
  · intro q hq
    have hq' : q ∈ qs.filter (fun q =>
        !q.question.isEmpty && q.options.isSome
          && (q.options.getD []).length == 4 && q.correctAnswer.isSome) :=
      List.mem_of_mem_take hq
    rw [List.mem_filter] at hq'
    have hb := hq'.2
    rw [Bool.and_eq_true, Bool.and_eq_true, Bool.and_eq_true] at hb
    obtain ⟨⟨⟨hb1, hb2⟩, hb3⟩, hb4⟩ := hb
    refine ⟨?_, by simpa using hb3, hb4⟩
    intro hnil
    rw [hnil] at hb1
    simp at hb1
  · rw [validateQuizQuestions, List.length_take]
    exact inf_le_left

/-- Witness for the amended claim C9 at a concrete validated question. -/
theorem claim_C9_quiz_shape_amended_witness :
    ("Q".toList ≠ ([] : JStr)) ∧
    ((some ["a".toList, "b".toList, "c".toList, "d".toList]).getD []).length = 4 ∧
    (some (2 : ℚ)).isSome = true :=
  (claim_C9_quiz_shape_amended
      [⟨"Q".toList, some ["a".toList, "b".toList, "c".toList, "d".toList],
        some (2 : ℚ), none⟩] 3).1
    ⟨"Q".toList, some ["a".toList, "b".toList, "c".toList, "d".toList],
      some (2 : ℚ), none⟩ (by decide)

/-! ## Claim C4 — retry wrapper behavior -/

/-- Claim C4: for the shared retry wrapper, an operation that fails twice with
non-quota HTTP 429 and succeeds on the third invocation yields the successful
result after exactly 3 invocations; an operation whose first failure is
quota-coded (explicit insufficient-quota code or a message matching quota
case-insensitively) is invoked exactly once and fails with the substituted
quota-exceeded error, never retried. -/
theorem claim_C4_retry_behavior :
    (∀ (α : Type) (fn : Nat → Except ApiError α) (v : α) (e0 e1 : ApiError),
      fn 0 = Except.error e0 → fn 1 = Except.error e1 → fn 2 = Except.ok v →
      e0.status = some 429 → e1.status = some 429 →
      isQuotaError e0 = false → isQuotaError e1 = false →
      withRetries fn 5 = (Except.ok v, 3)) ∧
    (∀ (α : Type) (fn : Nat → Except ApiError α) (e : ApiError),
      fn 0 = Except.error e → isQuotaError e = true →
      withRetries fn 5 = (Except.error quotaExceededError, 1)) := by
  constructor
  · intro α fn v e0 e1 h0 h1 h2 hs0 hs1 hq0 hq1
    unfold withRetries
    rw [withRetriesAux, h0]
    simp only [hq0, Bool.false_eq_true, if_false, hs0, beq_self_eq_true, if_true]
    rw [withRetriesAux, h1]
    simp only [hq1, Bool.false_eq_true, if_false, hs1, beq_self_eq_true, if_true]
    rw [withRetriesAux, h2]
  · intro α fn e h0 hq
    unfold withRetries
    rw [withRetriesAux, h0]
    simp [hq]

/-- Witness for claim C4 at concrete operations: one that returns 42 on its
third invocation after two rate-limit failures, and one that always fails
with an insufficient-quota code. -/
theorem claim_C4_retry_behavior_witness :
    withRetries (fun i => if i < 2
        then Except.error (⟨some 429, none, "rate limited".toList⟩ : ApiError)
        else Except.ok 42) 5 = (Except.ok 42, 3) ∧
    withRetries (fun _ => (Except.error
        (⟨some 429, some ("insufficient_quota".toList), "x".toList⟩ : ApiError) :
          Except ApiError Nat)) 5 = (Except.error quotaExceededError, 1) :=
  ⟨claim_C4_retry_behavior.1 Nat _ 42
      ⟨some 429, none, "rate limited".toList⟩ ⟨some 429, none, "rate limited".toList⟩
      rfl rfl rfl rfl rfl (by decide) (by decide),
    claim_C4_retry_behavior.2 Nat _
      ⟨some 429, some ("insufficient_quota".toList), "x".toList⟩ rfl (by decide)⟩

/-! ## Claim C8 — relevance filter of the context assembly -/

/-- Claim C8: the context-assembly step keeps exactly the search results with
similarity score strictly greater than 0.70, takes at most 5 of them, and
joins their texts with blank-line separators; for result scores 0.85, 0.72,
0.69, 0.5 exactly the first two are retained.  Stated as: every kept text
comes from a result with score strictly above the threshold, at most 5 texts
are kept, and the four-score instance keeps exactly the texts of the first
two results and joins them with the blank-line separator. -/
theorem claim_C8_relevance_filter :
    (∀ (rs : List VectorSearchResult) (c : JStr), c ∈ contextChunks rs →
      ∃ r ∈ rs, r.text = c ∧ (0.7 : ℚ) < r.score) ∧
    (∀ rs : List VectorSearchResult, (contextChunks rs).length ≤ 5) ∧
    (∀ r1 r2 r3 r4 : VectorSearchResult,
      r1.score = 0.85 → r2.score = 0.72 → r3.score = 0.69 → r4.score = 0.5 →
      contextChunks [r1, r2, r3, r4] = [r1.text, r2.text] ∧
      chatContext [r1, r2, r3, r4] = r1.text ++ "\n\n".toList ++ r2.text) := by
  refine ⟨?_, ?_, ?_⟩
  · intro rs c hc
    simp only [contextChunks, List.mem_map] at hc
    obtain ⟨r, hr, hrc⟩ := hc
    have hr' : r ∈ rs.filter (fun r => decide ((0.7 : ℚ) < r.score)) :=
      List.mem_of_mem_take hr
    rw [List.mem_filter] at hr'
    exact ⟨r, hr'.1, hrc, by simpa using hr'.2⟩
  · intro rs
    rw [contextChunks, List.length_map, List.length_take]
    exact inf_le_left
  · intro r1 r2 r3 r4 h1 h2 h3 h4
    have hchunks : contextChunks [r1, r2, r3, r4] = [r1.text, r2.text] := by
      rw [contextChunks]
      have e1 : decide ((0.7 : ℚ) < r1.score) = true := by rw [h1]; norm_num
      have e2 : decide ((0.7 : ℚ) < r2.score) = true := by rw [h2]; norm_num
      have e3 : decide ((0.7 : ℚ) < r3.score) = false := by rw [h3]; norm_num
      have e4 : decide ((0.7 : ℚ) < r4.score) = false := by rw [h4]; norm_num
      simp [List.filter, e1, e2, e3, e4]
    refine ⟨hchunks, ?_⟩
    rw [chatContext, hchunks, intercalate_pair]

/-- Witness for claim C8 at concrete results with scores 0.85, 0.72, 0.69 and
0.5: the first conjunct applied to the text kept from the top result, and the
third conjunct applied to the four concrete results. -/
theorem claim_C8_relevance_filter_witness :
    (∃ r ∈ [(⟨"i1".toList, "t1".toList, 0.85, ⟨none, none, none, none⟩⟩ : VectorSearchResult),
        ⟨"i2".toList, "t2".toList, 0.72, ⟨none, none, none, none⟩⟩],
      r.text = "t1".toList ∧ (0.7 : ℚ) < r.score) ∧
    contextChunks [⟨"i1".toList, "t1".toList, 0.85, ⟨none, none, none, none⟩⟩,
        ⟨"i2".toList, "t2".toList, 0.72, ⟨none, none, none, none⟩⟩,
        ⟨"i3".toList, "t3".toList, 0.69, ⟨none, none, none, none⟩⟩,
        ⟨"i4".toList, "t4".toList, 0.5, ⟨none, none, none, none⟩⟩] =
      ["t1".toList, "t2".toList] :=
  ⟨claim_C8_relevance_filter.1
      [⟨"i1".toList, "t1".toList, 0.85, ⟨none, none, none, none⟩⟩,
        ⟨"i2".toList, "t2".toList, 0.72, ⟨none, none, none, none⟩⟩] ("t1".toList)
      (by simp [contextChunks, List.filter]; norm_num),
    ((claim_C8_relevance_filter.2.2
      ⟨"i1".toList, "t1".toList, 0.85, ⟨none, none, none, none⟩⟩
      ⟨"i2".toList, "t2".toList, 0.72, ⟨none, none, none, none⟩⟩
      ⟨"i3".toList, "t3".toList, 0.69, ⟨none, none, none, none⟩⟩
      ⟨"i4".toList, "t4".toList, 0.5, ⟨none, none, none, none⟩⟩ rfl rfl rfl rfl).1)⟩

/-! ## Claim C10 — no short-circuit on an all-low-score search -/

/-- Claim C10: when every search result has similarity score at most 0.70 the
chat route still issues the completion request, with context equal to the
empty string and references equal to the empty list, and since the empty
context is falsy the user message sent to the provider is the raw query
without the context framing. -/
theorem claim_C10_empty_context_flow (fmt : ℚ → JStr)
    (searchResults : List VectorSearchResult) (query systemPrompt : JStr)
    (h : ∀ r ∈ searchResults, r.score ≤ (0.7 : ℚ)) :
    chatRouteStep fmt searchResults query systemPrompt =
      ([], [],
        ⟨[⟨ChatRole.system, systemPrompt⟩, ⟨ChatRole.user, query⟩], 1000, (0.7 : ℚ)⟩) := by
  have hfil : searchResults.filter (fun r => decide ((0.7 : ℚ) < r.score)) = [] := by
    rw [List.filter_eq_nil_iff]
    intro r hr
    simpa using not_lt.mpr (h r hr)
  have hctx : chatContext searchResults = [] := by
    rw [chatContext, contextChunks, hfil]
    rfl
  rw [chatRouteStep, hctx, chatReferences, hfil]
  rw [buildChatMessages]
  simp

/-- Witness for claim C10 at a concrete search outcome whose single result
scores 0.5. -/
theorem claim_C10_empty_context_flow_witness :
    chatRouteStep (fun _ => []) [⟨"i1".toList, "t1".toList, 0.5, ⟨none, none, none, none⟩⟩]
        ("why".toList) ("sys".toList) =
      ([], [],
        ⟨[⟨ChatRole.system, "sys".toList⟩, ⟨ChatRole.user, "why".toList⟩],
          1000, (0.7 : ℚ)⟩) :=
  claim_C10_empty_context_flow (fun _ => [])
    [⟨"i1".toList, "t1".toList, 0.5, ⟨none, none, none, none⟩⟩] ("why".toList) ("sys".toList)
    (by intro r hr; fin_cases hr; norm_num)

/-! ## Claim C1 — owner isolation of scoped searches -/

/-- Claim C1: in both vector-store variants, every result of a search scoped
to owner A is a chunk whose stored owner is A; no chunk with a different
stored owner is ever returned whatever its similarity.  For the relational
variant the stored owner of a chunk is the owner of its joined document row;
for the remote-index variant it is the `userId` metadata value of the stored
record, which the equality filter requires to be exactly the requested owner
(records lacking the tag match no scoped search). -/
theorem claim_C1_owner_isolation :
    (∀ (db : Database) (score : List ℚ → List ℚ → ℚ) (q : List ℚ) (topK : Nat)
        (u : JStr) (r : VectorSearchResult),
      r ∈ searchSimilarEmbeddingsInDB db score q topK (some u) →
      ∃ c ∈ db.chunks, ∃ d ∈ db.documents,
        d.id = c.documentId ∧ d.userId = u ∧ r.id = c.id ∧ r.text = c.text) ∧
    (∀ (index : List PineconeVector) (score : List ℚ → List ℚ → ℚ) (q : List ℚ)
        (topK : Nat) (u : JStr) (r : VectorSearchResult),
      r ∈ searchSimilarEmbeddings index score q topK (some u) →
      ∃ v ∈ index, v.metadata.userId = some u ∧ r.id = v.id) := by
  constructor
  · intro db score q topK u r hr
    simp only [searchSimilarEmbeddingsInDB, List.mem_map] at hr
    obtain ⟨rs, hrs, hfr⟩ := hr
    have hrs2 : rs ∈ sortByScoreDesc
        (((db.chunks.flatMap fun c =>
            (db.documents.filter (fun d => d.id == c.documentId)).map (fun d => (c, d))).filter
          (fun cd => cd.2.userId == u)).map
            (fun cd => (cd, score q cd.1.embedding))) :=
      List.mem_of_mem_take hrs
    rw [mem_sortByScoreDesc, List.mem_map] at hrs2
    obtain ⟨cd, hcd, hgcd⟩ := hrs2
    rw [List.mem_filter] at hcd
    obtain ⟨hcdj, hcdu⟩ := hcd
    rw [List.mem_flatMap] at hcdj
    obtain ⟨c, hc, hcd2⟩ := hcdj
    rw [List.mem_map] at hcd2
    obtain ⟨d, hd, hdc⟩ := hcd2
    rw [List.mem_filter] at hd
    subst hdc
    subst hgcd
    subst hfr
    exact ⟨c, hc, d, hd.1, by simpa using hd.2, by simpa using hcdu, rfl, rfl⟩
  · intro index score q topK u r hr
    simp only [searchSimilarEmbeddings, List.mem_map] at hr
    obtain ⟨rs, hrs, hfr⟩ := hr
    have hrs2 : rs ∈ sortByScoreDesc
        ((index.filter (fun v => v.metadata.userId == some u)).map
          (fun v => (v, score q v.values))) :=
      List.mem_of_mem_take hrs
    rw [mem_sortByScoreDesc, List.mem_map] at hrs2
    obtain ⟨v, hv, hgv⟩ := hrs2
    rw [List.mem_filter] at hv
    subst hgv
    subst hfr
    exact ⟨v, hv.1, by simpa using hv.2, rfl⟩

/-- Witness for claim C1: the relational conjunct applied to a one-chunk
database owned by user A and the result the scoped search returns there, and
the remote conjunct applied to a one-record index tagged with user A. -/
theorem claim_C1_owner_isolation_witness :
    (∃ c ∈ (⟨[⟨"d1".toList, "doc".toList, "A".toList⟩],
        [⟨"c1".toList, "d1".toList, "hi".toList, [(1 : ℚ)]⟩]⟩ : Database).chunks,
      ∃ d ∈ (⟨[⟨"d1".toList, "doc".toList, "A".toList⟩],
          [⟨"c1".toList, "d1".toList, "hi".toList, [(1 : ℚ)]⟩]⟩ : Database).documents,
        d.id = c.documentId ∧ d.userId = "A".toList ∧
        (⟨"c1".toList, "hi".toList, (1 : ℚ),
          ⟨none, some ("d1".toList), some ("doc".toList), none⟩⟩ :
            VectorSearchResult).id = c.id ∧
        (⟨"c1".toList, "hi".toList, (1 : ℚ),
          ⟨none, some ("d1".toList), some ("doc".toList), none⟩⟩ :
            VectorSearchResult).text = c.text) ∧
    (∃ v ∈ [(⟨"c9".toList, [(1 : ℚ)],
        ⟨some ("t".toList), some ("d9".toList), none, some ("A".toList)⟩⟩ :
          PineconeVector)],
      v.metadata.userId = some ("A".toList) ∧
      (⟨"c9".toList, "t".toList, (1 : ℚ),
        ⟨some ("t".toList), some ("d9".toList), none, some ("A".toList)⟩⟩ :
          VectorSearchResult).id = v.id) :=
  ⟨claim_C1_owner_isolation.1
      ⟨[⟨"d1".toList, "doc".toList, "A".toList⟩],
        [⟨"c1".toList, "d1".toList, "hi".toList, [(1 : ℚ)]⟩]⟩
      (fun _ _ => 1) [(1 : ℚ)] 5 ("A".toList)
      ⟨"c1".toList, "hi".toList, (1 : ℚ),
        ⟨none, some ("d1".toList), some ("doc".toList), none⟩⟩ (by decide),
    claim_C1_owner_isolation.2
      [⟨"c9".toList, [(1 : ℚ)],
        ⟨some ("t".toList), some ("d9".toList), none, some ("A".toList)⟩⟩]
      (fun _ _ => 1) [(1 : ℚ)] 5 ("A".toList)
      ⟨"c9".toList, "t".toList, (1 : ℚ),
        ⟨some ("t".toList), some ("d9".toList), none, some ("A".toList)⟩⟩ (by decide)⟩

/-! ## Claim C7 — order preservation of batch embedding and pairing -/

/-- Claim C7: a batch of N chunk texts, each non-empty after trimming (as the
chunker produces them), yields exactly N embedding responses with the i-th
vector computed from the i-th input (the provider answers the whole batch in
order, modeled by `texts.map f`), the empty batch yields the empty list, and
the upload pairing step then attaches the i-th chunk text to the i-th
response, so the stored chunk-to-embedding pairing is index-aligned. -/
theorem claim_C7_order_preservation :
    (∀ provider : List JStr → Except ApiError (List (List ℚ) × Nat),
      generateEmbeddings provider [] = Except.ok []) ∧
    (∀ (f : JStr → List ℚ) (T : Nat)
        (provider : List JStr → Except ApiError (List (List ℚ) × Nat))
        (texts : List JStr) (ids : Nat → JStr) (documentId : JStr),
      (∀ t ∈ texts, 0 < (jsTrim t).length) →
      provider texts = Except.ok (texts.map f, T) →
      generateEmbeddings provider texts =
        Except.ok (texts.map fun t => ⟨f t, jsMathRound T texts.length⟩) ∧
      (uploadEmbeddingItems ids documentId texts
          (texts.map fun t => ⟨f t, jsMathRound T texts.length⟩)).length = texts.length ∧
      ∀ i : Nat, i < texts.length →
        (uploadEmbeddingItems ids documentId texts
            (texts.map fun t => ⟨f t, jsMathRound T texts.length⟩)).getD i ⟨[], [], [], []⟩ =
          ⟨ids i, f (texts.getD i []), texts.getD i [], documentId⟩) := by
  constructor
  · intro provider
    rfl
  · intro f T provider texts ids documentId hvalid hprov
    have hlen : (uploadEmbeddingItems ids documentId texts
        (texts.map fun t => ⟨f t, jsMathRound T texts.length⟩)).length = texts.length := by
      rw [uploadEmbeddingItems, List.length_mapIdx, List.length_map]
    refine ⟨?_, hlen, ?_⟩
    · cases texts with
      | nil =>
        rfl
      | cons t ts =>
        have hfil : (t :: ts).filter (fun x => decide (0 < (jsTrim x).length)) = t :: ts :=
          List.filter_eq_self.mpr (fun a ha => by simpa using hvalid a ha)
        rw [generateEmbeddings, if_neg (by simp)]
        simp only [hfil, hprov]
        rw [if_neg (by simp)]
        simp [List.map_map, Function.comp]
    · intro i hi
      have hi2 : i < (uploadEmbeddingItems ids documentId texts
          (texts.map fun t => ⟨f t, jsMathRound T texts.length⟩)).length := by
        rw [hlen]; exact hi
      rw [List.getD_eq_getElem _ _ hi2, List.getD_eq_getElem _ _ hi]
      simp [uploadEmbeddingItems, List.getElem_mapIdx,
        List.getD_eq_getElem _ _ hi, List.getElem?_eq_getElem hi]

/-- Witness for claim C7 at a concrete two-chunk batch whose provider maps
each text to the one-element vector holding its length. -/
theorem claim_C7_order_preservation_witness :
    generateEmbeddings
        (fun ts => Except.ok (ts.map (fun t => [(t.length : ℚ)]), 10))
        ["hi".toList, "yo".toList] =
      Except.ok (["hi".toList, "yo".toList].map fun t =>
        ⟨[(t.length : ℚ)], jsMathRound 10 (["hi".toList, "yo".toList].length)⟩) :=
  (claim_C7_order_preservation.2 (fun t => [(t.length : ℚ)]) 10
      (fun ts => Except.ok (ts.map (fun t => [(t.length : ℚ)]), 10))
      ["hi".toList, "yo".toList] (fun _ => []) ("d1".toList)
      (by intro t ht; fin_cases ht <;> decide) rfl).1

/-! ## Claim C6 — chunk-size bound of the chunker -/

/-- One loop step of the chunker preserves the size invariant: sentences come
from the list `S`, every finished chunk stays `OkChunk` and the running chunk
stays `OkCurrent`. -/
theorem chunkStep_preserves (S : List JStr) (maxTokens : Nat) (st : ChunkState)
    (s : JStr) (hs : s ∈ S)
    (h1 : ∀ c ∈ st.chunks, OkChunk S maxTokens c)
    (h2 : OkCurrent S maxTokens st.currentChunk) :
    (∀ c ∈ (chunkStep maxTokens st s).chunks, OkChunk S maxTokens c) ∧
      OkCurrent S maxTokens (chunkStep maxTokens st s).currentChunk := by
  rw [chunkStep]
  by_cases hts : jsTrim s = []
  · rw [if_pos hts]
    exact ⟨h1, h2⟩
  · rw [if_neg hts]
    by_cases hcond : 4 * maxTokens < (st.currentChunk ++ jsTrim s).length ∧
        st.currentChunk ≠ []
    · rw [if_pos hcond]
      refine ⟨?_, Or.inr (Or.inl ⟨s, hs, rfl⟩)⟩
      intro c hc
      rcases List.mem_append.mp hc with hcm | hcm
      · exact h1 c hcm
      · rw [List.mem_singleton] at hcm
        subst hcm
        rcases h2 with hemp | ⟨s0, hs0, hcc⟩ | hbnd
        · exact absurd hemp hcond.2
        · exact Or.inl ⟨s0, hs0, by rw [hcc]⟩
        · exact Or.inr (le_trans (jsTrim_length_le _) hbnd)
    · rw [if_neg hcond]
      refine ⟨h1, ?_⟩
      by_cases hcc : st.currentChunk = []
      · rw [hcc]
        refine Or.inr (Or.inl ⟨s, hs, ?_⟩)
        simp
      · have hfit : (st.currentChunk ++ jsTrim s).length ≤ 4 * maxTokens := by
          rcases not_and_or.mp hcond with hnl | hne
          · exact le_of_not_lt hnl
          · exact absurd hcc (by simpa using hne)
        rw [if_pos hcc]
        refine Or.inr (Or.inr ?_)
        rw [List.length_append, List.length_append]
        rw [List.length_append] at hfit
        simp only [List.length_cons, List.length_nil]
        omega

/-- Folding the chunker loop over sentences taken from `S` preserves the size
invariant. -/
theorem foldl_chunkStep_inv (S : List JStr) (maxTokens : Nat) :
    ∀ (l : List JStr) (st : ChunkState), (∀ s ∈ l, s ∈ S) →
      (∀ c ∈ st.chunks, OkChunk S maxTokens c) →
      OkCurrent S maxTokens st.currentChunk →
      (∀ c ∈ (l.foldl (chunkStep maxTokens) st).chunks, OkChunk S maxTokens c) ∧
        OkCurrent S maxTokens (l.foldl (chunkStep maxTokens) st).currentChunk := by
  intro l
  induction l with
  | nil => intro st _ h1 h2; exact ⟨h1, h2⟩
  | cons s ls ih =>
    intro st hl h1 h2
    rw [List.foldl_cons]
    have hstep := chunkStep_preserves S maxTokens st s (hl s (by simp)) h1 h2
    exact ih _ (fun x hx => hl x (by simp [hx])) hstep.1 hstep.2

/-- Claim C6 counterexample: the claim states that every chunk satisfies
length over 4 at most maxTokensPerChunk except a single sentence that alone
exceeds the limit.  For the text consisting of the sentences ab and c with
limit 1, each sentence alone fits the limit (lengths 2 and 1, both at most
4), yet the produced chunk joins them with the two-character separator into a
length-5 chunk whose estimate 5 over 4 exceeds the limit 1: the estimate is
computed before the separator is appended, so a multi-sentence chunk can
exceed the bound. -/
theorem claim_C6_counterexample :
    splitTextIntoChunks ("ab.c".toList) 1 = ["ab. c".toList] ∧
    4 * 1 < ("ab. c".toList).length ∧
    sentencesOf ("ab.c".toList) = ["ab".toList, "c".toList] ∧
    ("ab".toList).length ≤ 4 * 1 ∧ ("c".toList).length ≤ 4 * 1 := by
  decide

/-- Claim C6, amended: every chunk produced by `splitTextIntoChunks` either is
the trimmed form of one single sentence of the input (a single oversized
sentence is kept whole), or has length at most 4 times maxTokensPerChunk plus
2 — the stated estimate bound can be exceeded by at most the two characters
of the sentence separator, which the estimate does not count. -/
theorem claim_C6_chunk_bound_amended (text : JStr) (maxTokens : Nat) (c : JStr)
    (hc : c ∈ splitTextIntoChunks text maxTokens) :
    (∃ s ∈ sentencesOf text, c = jsTrim (jsTrim s)) ∨
      c.length ≤ 4 * maxTokens + 2 := by
  have hinv := foldl_chunkStep_inv (sentencesOf text) maxTokens (sentencesOf text)
    ⟨[], []⟩ (fun s hs => hs) (by simp) (Or.inl rfl)
  simp only [splitTextIntoChunks] at hc
  by_cases hne : jsTrim ((sentencesOf text).foldl (chunkStep maxTokens)
      ⟨[], []⟩).currentChunk ≠ []
  · rw [if_pos hne] at hc
    rcases List.mem_append.mp hc with h | h
    · exact hinv.1 c h
    · rw [List.mem_singleton] at h
      subst h
      rcases hinv.2 with hemp | ⟨s, hsmem, hcc⟩ | hbnd
      · rw [hemp] at hne
        exact absurd rfl hne
      · exact Or.inl ⟨s, hsmem, by rw [hcc]⟩
      · exact Or.inr (le_trans (jsTrim_length_le _) hbnd)
  · rw [if_neg hne] at hc
    exact hinv.1 c hc

/-- Witness for the amended claim C6: for the text of sentences ab and c with
limit 1, the produced chunk satisfies the amended bound 4 times 1 plus 2. -/
theorem claim_C6_chunk_bound_amended_witness :
    (∃ s ∈ sentencesOf ("ab.c".toList), "ab. c".toList = jsTrim (jsTrim s)) ∨
      ("ab. c".toList).length ≤ 4 * 1 + 2 :=
  claim_C6_chunk_bound_amended ("ab.c".toList) 1 ("ab. c".toList) (by decide)

end StudyMate
